import Mathlib

/-!
Shallow embedding of the multi-channel A/D converter engine (`main/adc.c`)
and proofs of the specified properties.

All stored quantities are C `uint32_t` values; they are modelled as `Nat`
with explicit reduction modulo `2^32` at the two places where the C
arithmetic can actually wrap for in-range operands (the `input - width/2`
subtraction and the two additions in the window-sliding branches of the
hysteresis filter).  The per-channel record mirrors `adc_channel_data_t`,
the accessor API mirrors `adc_get_*` / `adc_set_*`, with the FreeRTOS
mutex modelled by an explicit `lock_ok` flag (whether `xSemaphoreTake`
succeeded within the wait budget), NULL output pointers by `*_null` flags,
and the NVS `save_channel_config` result by a `save_result` parameter.
-/

/-- Modulus of C `uint32_t` arithmetic. -/
def U32_MOD : Nat := 4294967296

/-- C `uint32_t` addition (wraps modulo `2^32`). -/
def uadd (a b : Nat) : Nat := (a + b) % U32_MOD

/-- C `uint32_t` subtraction (wraps modulo `2^32`); exact for `a, b < 2^32`. -/
def usub (a b : Nat) : Nat := (a + (U32_MOD - b % U32_MOD)) % U32_MOD

/-- `ADC_MAX` from adc.c: `1 << 12`. -/
def ADC_MAX : Nat := 4096

/-- `ADC_MAX_CHANNELS`: the source default (`CONFIG_ADC_MAX_CHANNELS` absent → 4). -/
def ADC_MAX_CHANNELS : Nat := 4

/-- `RUNNING_AVG_SIZE`: the source default (`CONFIG_ADC_RUNNING_AVG_SIZE` absent → 10). -/
def RUNNING_AVG_SIZE : Nat := 10

/-- `ESP_OK` from esp_err.h. -/
def ESP_OK : Nat := 0

/-- `ESP_ERR_INVALID_ARG` from esp_err.h (`0x102`). -/
def ESP_ERR_INVALID_ARG : Nat := 258

/-- `ESP_ERR_TIMEOUT` from esp_err.h (`0x107`). -/
def ESP_ERR_TIMEOUT : Nat := 263

/-- `r_hyst_t`: running-hysteresis state for one channel. -/
structure r_hyst_t where
  min : Nat
  max : Nat
  hysteresis : Nat
  deriving DecidableEq

/-- `r_avg_t`: running-average state for one channel (circular buffer plus cursor). -/
structure r_avg_t where
  queue : List Nat
  ptr : Nat
  deriving DecidableEq

/-- `adc_channel_data_t`: per-channel ADC data. -/
structure adc_channel_data_t where
  raw_value : Nat
  normalized_value : Nat
  r_hyst : r_hyst_t
  r_avg : r_avg_t
  min_cal : Nat
  max_cal : Nat
  deriving DecidableEq

/-- Default channel record used to model C array indexing (out-of-range
reads never happen behind `chk_chn`). -/
def dflt_channel : adc_channel_data_t :=
  ⟨0, 0, ⟨0, 0, 0⟩, ⟨[], 0⟩, 0, 0⟩

/-- `chk_chn`: channel-index validation. -/
def chk_chn (channel : Nat) : Bool := decide (channel < ADC_MAX_CHANNELS)

/-- `running_hyst` from adc.c, body for a valid channel (the `chk_chn`
guard lives at the table layer; `task_adc` only calls it with matched,
valid channel indices).  Returns the updated channel record and the
filter output.  `MIN`/`MAX` are the usual macros; the `uint32_t`
subtraction `input - hysteresis/2` and the additions are modelled with
wrapping arithmetic exactly as C computes them; `newMax - hysteresis`
in the upward branch is guarded by `newMax > hysteresis` so plain `Nat`
subtraction is exact there. -/
def running_hyst (d : adc_channel_data_t) (input : Nat) : adc_channel_data_t × Nat :=
  if input ≤ d.r_hyst.max ∧ d.r_hyst.min ≤ input then
    (d, d.r_hyst.min + (d.r_hyst.max - d.r_hyst.min) / 2)
  else if d.r_hyst.max < input then
    let newMax := min (uadd input (d.r_hyst.hysteresis / 2)) d.max_cal
    let newMin := if d.r_hyst.hysteresis < newMax then newMax - d.r_hyst.hysteresis else 0
    ({ d with r_hyst := ⟨newMin, newMax, d.r_hyst.hysteresis⟩ }, input)
  else
    let newMin := max (usub input (d.r_hyst.hysteresis / 2)) d.min_cal
    let newMax := min (uadd newMin d.r_hyst.hysteresis) d.max_cal
    ({ d with r_hyst := ⟨newMin, newMax, d.r_hyst.hysteresis⟩ }, input)

/-- `running_average` from adc.c, body for a valid channel: overwrite the
slot at the cursor, advance the cursor modulo `RUNNING_AVG_SIZE`, return
the truncated mean of all slots.  The C sum is a `uint64_t`; ten
`uint32_t` summands cannot overflow it, so the `Nat` sum is exact. -/
def running_average (a : r_avg_t) (input : Nat) : r_avg_t × Nat :=
  let q := a.queue.set a.ptr input
  (⟨q, (a.ptr + 1) % RUNNING_AVG_SIZE⟩, q.sum / RUNNING_AVG_SIZE)

/-- Per-sample body of `task_adc` after the mutex is taken: store the raw
value, push it through `running_hyst` then `running_average`, store the
result as the normalized value. -/
def task_adc_sample (d : adc_channel_data_t) (raw : Nat) : adc_channel_data_t :=
  let hr := running_hyst d raw
  let ar := running_average hr.1.r_avg hr.2
  { hr.1 with raw_value := raw, normalized_value := ar.2, r_avg := ar.1 }

/-- Processing of a sequence of raw samples for one channel by `task_adc`. -/
def task_adc_run (d : adc_channel_data_t) (raws : List Nat) : adc_channel_data_t :=
  raws.foldl task_adc_sample d

/-- Whole-table state: `channel_data[ADC_MAX_CHANNELS]` from adc.c. -/
structure AdcState where
  channel_data : List adc_channel_data_t
  deriving DecidableEq

/-- Table-level acquisition: `task_adc` feeding a matched channel a
sequence of raw samples (samples for unmatched channels are dropped). -/
def task_adc_samples (st : AdcState) (channel : Nat) (raws : List Nat) : AdcState :=
  if chk_chn channel then
    ⟨st.channel_data.set channel (task_adc_run (st.channel_data.getD channel dflt_channel) raws)⟩
  else st

/-- `adc_get_normalized(channel, v, wait)`.  `v_null` models `v == NULL`;
`lock_ok` models whether `xSemaphoreTake(adc_mutex, wait)` succeeded.
Returns (error code, value written through `v`, whether the lock was
attempted). -/
def adc_get_normalized (st : AdcState) (channel : Nat) (v_null : Bool) (lock_ok : Bool) :
    Nat × Option Nat × Bool :=
  if chk_chn channel = false ∨ v_null = true then (ESP_ERR_INVALID_ARG, none, false)
  else if lock_ok = false then (ESP_ERR_TIMEOUT, none, true)
  else (ESP_OK, some (st.channel_data.getD channel dflt_channel).normalized_value, true)

/-- `adc_get_raw(channel, v, wait)`. -/
def adc_get_raw (st : AdcState) (channel : Nat) (v_null : Bool) (lock_ok : Bool) :
    Nat × Option Nat × Bool :=
  if chk_chn channel = false ∨ v_null = true then (ESP_ERR_INVALID_ARG, none, false)
  else if lock_ok = false then (ESP_ERR_TIMEOUT, none, true)
  else (ESP_OK, some (st.channel_data.getD channel dflt_channel).raw_value, true)

/-- `adc_get_calibration(channel, min, max)` (fixed 100 ms lock wait). -/
def adc_get_calibration (st : AdcState) (channel : Nat) (min_null max_null : Bool)
    (lock_ok : Bool) : Nat × Option (Nat × Nat) × Bool :=
  if chk_chn channel = false ∨ min_null = true ∨ max_null = true then
    (ESP_ERR_INVALID_ARG, none, false)
  else if lock_ok = false then (ESP_ERR_TIMEOUT, none, true)
  else
    let d := st.channel_data.getD channel dflt_channel
    (ESP_OK, some (d.min_cal, d.max_cal), true)

/-- `adc_get_hysteresis(channel, hysteresis)` (fixed 100 ms lock wait). -/
def adc_get_hysteresis (st : AdcState) (channel : Nat) (h_null : Bool) (lock_ok : Bool) :
    Nat × Option Nat × Bool :=
  if chk_chn channel = false ∨ h_null = true then (ESP_ERR_INVALID_ARG, none, false)
  else if lock_ok = false then (ESP_ERR_TIMEOUT, none, true)
  else (ESP_OK, some (st.channel_data.getD channel dflt_channel).r_hyst.hysteresis, true)

/-- `adc_set_calibration(channel, min, max)` (fixed 100 ms lock wait).
On success updates the calibration bounds, repositions the hysteresis
window, and returns the `save_channel_config` result (modelled by the
`save_result` parameter). -/
def adc_set_calibration (st : AdcState) (channel mn mx : Nat) (lock_ok : Bool)
    (save_result : Nat) : Nat × AdcState × Bool :=
  if chk_chn channel = false ∨ mx ≤ mn ∨ ADC_MAX < mx then (ESP_ERR_INVALID_ARG, st, false)
  else if lock_ok = false then (ESP_ERR_TIMEOUT, st, true)
  else
    let d := st.channel_data.getD channel dflt_channel
    let d2 := { d with min_cal := mn, max_cal := mx, r_hyst := ⟨mn, min (uadd mn d.r_hyst.hysteresis) mx, d.r_hyst.hysteresis⟩ }
    (save_result, ⟨st.channel_data.set channel d2⟩, true)

/-- `adc_set_hysteresis(channel, hysteresis)` (fixed 100 ms lock wait). -/
def adc_set_hysteresis (st : AdcState) (channel hysteresis : Nat) (lock_ok : Bool)
    (save_result : Nat) : Nat × AdcState × Bool :=
  if chk_chn channel = false ∨ hysteresis = 0 ∨ 1000 < hysteresis then
    (ESP_ERR_INVALID_ARG, st, false)
  else if lock_ok = false then (ESP_ERR_TIMEOUT, st, true)
  else
    let d := st.channel_data.getD channel dflt_channel
    (save_result,
     ⟨st.channel_data.set channel { d with r_hyst := ⟨d.r_hyst.min, d.r_hyst.max, hysteresis⟩ }⟩,
     true)

/-- The Accessor API operations of adc.h. -/
def accessor_api_ops : List String :=
  ["adc_get_raw", "adc_get_normalized", "adc_get_calibration", "adc_get_hysteresis",
   "adc_set_calibration", "adc_set_hysteresis"]

/-- Which Accessor API operations have a caller-supplied `TickType_t wait`
parameter in adc.h (the other four call `xSemaphoreTake` with the fixed
`pdMS_TO_TICKS(100)`). -/
def takes_caller_wait (op : String) : Bool :=
  op == "adc_get_raw" || op == "adc_get_normalized"

/-- Lock wait budget, in milliseconds, each operation passes to
`xSemaphoreTake`: the caller's wait for `adc_get_raw`/`adc_get_normalized`,
the fixed 100 ms of `pdMS_TO_TICKS(100)` for the rest. -/
def lock_wait_budget_ms (op : String) (caller_wait_ms : Nat) : Nat :=
  if takes_caller_wait op then caller_wait_ms else 100

/-- Modelled from the spec: the downward-branch window update of the
hysteresis filter as the specification states it, in ordinary
(non-wrapping) integer arithmetic: `window_min = max(x − width/2,
calibration.min)`, `window_max = min(window_min + width,
calibration.max)`.  Used only to compare against the source behaviour. -/
def spec_down_window (x width cmin cmax : Int) : Int × Int :=
  let newMin := max (x - width / 2) cmin
  (newMin, min (newMin + width) cmax)

/-- Zero-filled running-average state, as after `bzero` in `adc_init`. -/
def avg0 : r_avg_t := ⟨List.replicate 10 0, 0⟩

/-- A channel record as `adc_init` leaves it with defaults min 0, max 4095,
hysteresis 40 (window `[0, 40]`). -/
def d_init : adc_channel_data_t := ⟨0, 0, ⟨0, 40, 40⟩, avg0, 0, 4095⟩

/-- A whole table of freshly initialized channels. -/
def st_init : AdcState := ⟨List.replicate 4 d_init⟩

/-- Channel record with calibration `[30, 50]`, window `[30, 40]` inside
those bounds, width 40; average buffer zero-filled. -/
def d_c1cex : adc_channel_data_t := ⟨0, 0, ⟨30, 40, 40⟩, avg0, 30, 50⟩

/-- Table whose every channel is `d_c1cex`. -/
def st_c1cex : AdcState := ⟨List.replicate 4 d_c1cex⟩

/-- Channel record with window `[30, 70]`, width 40, calibration
`[0, 4095]` (reachable from `d_init` by one raw sample of 50). -/
def d_c2 : adc_channel_data_t := ⟨0, 0, ⟨30, 70, 40⟩, avg0, 0, 4095⟩

/-- Channel record with window `[50, 90]`, width 40, calibration `[0, 4095]`. -/
def d_c3 : adc_channel_data_t := ⟨0, 0, ⟨50, 90, 40⟩, avg0, 0, 4095⟩

/-- Channel record with window `[1980, 2020]`, width 40, calibration `[0, 4095]`. -/
def d_c4 : adc_channel_data_t := ⟨0, 0, ⟨1980, 2020, 40⟩, avg0, 0, 4095⟩

/-- Channel record with window `[0, 40]`, width 40, calibration `[0, 4095]`. -/
def d_c5 : adc_channel_data_t := ⟨0, 0, ⟨0, 40, 40⟩, avg0, 0, 4095⟩

/-- Invariant carried along the acquisition pipeline for a fixed
calibration ceiling `C`: the calibration maximum is `C`, the window top
never exceeds it, the average buffer has its full `RUNNING_AVG_SIZE`
slots all bounded by `C`, and the stored normalized value is bounded
by `C`. -/
def GoodCh (C : Nat) (d : adc_channel_data_t) : Prop :=
  d.max_cal = C ∧ d.r_hyst.max ≤ C ∧ d.r_avg.queue.length = RUNNING_AVG_SIZE ∧
    (∀ v ∈ d.r_avg.queue, v ≤ C) ∧ d.normalized_value ≤ C

theorem uadd_eq_of_lt {a b : Nat} (h : a + b < U32_MOD) : uadd a b = a + b := by
  simpa [uadd] using Nat.mod_eq_of_lt h

theorem set_getD_self {α : Type} (dflt : α) :
    ∀ (l : List α) (i : Nat) (x : α), i < l.length → (l.set i x).getD i dflt = x := by
  intro l
  induction l with
  | nil => intro i x h; simp at h
  | cons a t ih =>
    intro i x h
    cases i with
    | zero => simp
    | succ n => simpa using ih n x (by simpa using h)

theorem set_getD_ne {α : Type} (dflt : α) :
    ∀ (l : List α) (i j : Nat) (x : α), i ≠ j → (l.set i x).getD j dflt = l.getD j dflt := by
  intro l
  induction l with
  | nil => intro i j x _; simp
  | cons a t ih =>
    intro i j x h
    cases i with
    | zero =>
      cases j with
      | zero => exact absurd rfl h
      | succ m => simp
    | succ n =>
      cases j with
      | zero => simp
      | succ m => simpa using ih n m x (by omega)

theorem running_hyst_le (d : adc_channel_data_t) (input : Nat)
    (hmax : d.r_hyst.max ≤ d.max_cal) (hin : input ≤ d.max_cal) :
    (running_hyst d input).2 ≤ d.max_cal ∧
      (running_hyst d input).1.r_hyst.max ≤ d.max_cal ∧
      (running_hyst d input).1.max_cal = d.max_cal ∧
      (running_hyst d input).1.r_avg = d.r_avg := by
  unfold running_hyst
  split
  · rename_i hcond
    refine ⟨?_, hmax, rfl, rfl⟩
    simp only
    omega
  · split
    · exact ⟨hin, by simp only; omega, rfl, rfl⟩
    · exact ⟨hin, by simp only; omega, rfl, rfl⟩

theorem running_average_le (a : r_avg_t) (y C : Nat)
    (hlen : a.queue.length = RUNNING_AVG_SIZE)
    (hq : ∀ v ∈ a.queue, v ≤ C) (hy : y ≤ C) :
    (running_average a y).2 ≤ C ∧
      (running_average a y).1.queue.length = RUNNING_AVG_SIZE ∧
      (∀ v ∈ (running_average a y).1.queue, v ≤ C) := by
  have hq2 : ∀ v ∈ a.queue.set a.ptr y, v ≤ C := by
    intro v hv
    rcases List.mem_or_eq_of_mem_set hv with h | h
    · exact hq v h
    · omega
  have hlen2 : (a.queue.set a.ptr y).length = RUNNING_AVG_SIZE := by
    simpa using hlen
  have hsum : (a.queue.set a.ptr y).sum ≤ RUNNING_AVG_SIZE * C := by
    have h := List.sum_le_card_nsmul (a.queue.set a.ptr y) C hq2
    rwa [hlen2, smul_eq_mul] at h
  refine ⟨?_, hlen2, hq2⟩
  show (a.queue.set a.ptr y).sum / RUNNING_AVG_SIZE ≤ C
  calc (a.queue.set a.ptr y).sum / RUNNING_AVG_SIZE
      ≤ RUNNING_AVG_SIZE * C / RUNNING_AVG_SIZE := Nat.div_le_div_right hsum
    _ = C := Nat.mul_div_cancel_left C (by simp [RUNNING_AVG_SIZE])

theorem task_adc_sample_good (C : Nat) (d : adc_channel_data_t) (raw : Nat)
    (hg : GoodCh C d) (hraw : raw ≤ C) : GoodCh C (task_adc_sample d raw) := by
  obtain ⟨hcal, hmax, hlen, hq, _⟩ := hg
  have hyl := running_hyst_le d raw (by rw [hcal]; exact hmax) (by rw [hcal]; exact hraw)
  obtain ⟨hout, hmax2, hcal2, havg2⟩ := hyl
  have hal := running_average_le (running_hyst d raw).1.r_avg (running_hyst d raw).2 C
      (by rw [havg2]; exact hlen) (by rw [havg2]; exact hq) (by rw [hcal] at hout; exact hout)
  obtain ⟨hal1, hal2, hal3⟩ := hal
  refine ⟨?_, ?_, ?_, ?_, ?_⟩ <;> simp only [task_adc_sample]
  · rw [hcal2, hcal]
  · rw [hcal] at hmax2; exact hmax2
  · exact hal2
  · exact hal3
  · exact hal1

theorem task_adc_run_good (C : Nat) (raws : List Nat) :
    ∀ d : adc_channel_data_t, GoodCh C d → (∀ r ∈ raws, r ≤ C) →
      GoodCh C (task_adc_run d raws) := by
  induction raws with
  | nil => intro d hg _; simpa [task_adc_run] using hg
  | cons r rs ih =>
    intro d hg hr
    have h1 : r ≤ C := hr r (List.mem_cons_self r rs)
    have h2 : ∀ x ∈ rs, x ≤ C := fun x hx => hr x (List.mem_cons_of_mem _ hx)
    have hstep := task_adc_sample_good C d r hg h1
    simpa [task_adc_run] using ih (task_adc_sample d r) hstep h2

/-- C1 (amended): for a valid channel whose hysteresis window starts
inside its calibration bounds with width ≥ 1, whose average buffer is
fully populated with values at most `calibration.max` and whose stored
normalized value is at most `calibration.max` (as after `adc_init`),
processing any sequence of raw samples each at most `calibration.max`
leaves the value returned by `adc_get_normalized` within
`[0, calibration.max]`. -/
theorem C1_normalized_in_range (st : AdcState) (channel : Nat) (raws : List Nat)
    (d : adc_channel_data_t)
    (hch : channel < ADC_MAX_CHANNELS)
    (hlen4 : st.channel_data.length = ADC_MAX_CHANNELS)
    (hd : st.channel_data.getD channel dflt_channel = d)
    (hw1 : d.min_cal ≤ d.r_hyst.min) (hw2 : d.r_hyst.min ≤ d.r_hyst.max)
    (hw3 : d.r_hyst.max ≤ d.max_cal) (hwidth : 1 ≤ d.r_hyst.hysteresis)
    (hqlen : d.r_avg.queue.length = RUNNING_AVG_SIZE)
    (hq : ∀ v ∈ d.r_avg.queue, v ≤ d.max_cal)
    (hn : d.normalized_value ≤ d.max_cal)
    (hraws : ∀ r ∈ raws, r ≤ d.max_cal) :
    (adc_get_normalized (task_adc_samples st channel raws) channel false true).1 = ESP_OK ∧
      ∀ v, (adc_get_normalized (task_adc_samples st channel raws) channel false true).2.1
          = some v → v ≤ d.max_cal := by
  have hchk : chk_chn channel = true := by
    simp [chk_chn, hch]
  have hgood : GoodCh d.max_cal (task_adc_run d raws) :=
    task_adc_run_good d.max_cal raws d ⟨rfl, hw3, hqlen, hq, hn⟩ hraws
  have hset : (task_adc_samples st channel raws).channel_data.getD channel dflt_channel
      = task_adc_run d raws := by
    simp only [task_adc_samples, hchk, if_pos]
    rw [hd, set_getD_self dflt_channel _ _ _ (by rw [hlen4]; exact hch)]
  have hred : adc_get_normalized (task_adc_samples st channel raws) channel false true
      = (ESP_OK, some (task_adc_run d raws).normalized_value, true) := by
    have hne1 : ¬ (chk_chn channel = false ∨ (false : Bool) = true) := by simp [hchk]
    have hne2 : ¬ ((true : Bool) = false) := by simp
    simp only [adc_get_normalized]
    rw [if_neg hne1, if_neg hne2, hset]
  constructor
  · rw [hred]
  · intro v hv
    rw [hred] at hv
    simp only [Option.some.injEq] at hv
    obtain ⟨-, -, -, -, hnv⟩ := hgood
    omega

/-- C1 counterexample: a channel with calibration `[30, 50]`, window
`[30, 40]` inside those bounds, width 40 > 0, zero-filled average buffer
(the `adc_init` state for that configuration): one raw sample of 35 —
inside the window and inside the calibration bounds — leaves
`adc_get_normalized` returning 3, which is below `calibration.min = 30`. -/
theorem C1_counterexample :
    d_c1cex.min_cal ≤ d_c1cex.r_hyst.min ∧ d_c1cex.r_hyst.min ≤ d_c1cex.r_hyst.max ∧
      d_c1cex.r_hyst.max ≤ d_c1cex.max_cal ∧ 1 ≤ d_c1cex.r_hyst.hysteresis ∧
      (adc_get_normalized (task_adc_samples st_c1cex 0 [35]) 0 false true).2.1 = some 3 ∧
      ¬ (d_c1cex.min_cal ≤ 3) := by
  decide

/-- C1 witness: the freshly initialized table, channel 0, raw samples
`[50, 10]` (each ≤ 4095): `adc_get_normalized` succeeds and every value
it can report is at most `calibration.max = 4095`. -/
theorem C1_witness :
    ((0 : Nat) < ADC_MAX_CHANNELS ∧ st_init.channel_data.length = ADC_MAX_CHANNELS ∧
        st_init.channel_data.getD 0 dflt_channel = d_init ∧
        d_init.min_cal ≤ d_init.r_hyst.min ∧ d_init.r_hyst.min ≤ d_init.r_hyst.max ∧
        d_init.r_hyst.max ≤ d_init.max_cal ∧ 1 ≤ d_init.r_hyst.hysteresis ∧
        d_init.r_avg.queue.length = RUNNING_AVG_SIZE ∧
        (∀ v ∈ d_init.r_avg.queue, v ≤ d_init.max_cal) ∧
        d_init.normalized_value ≤ d_init.max_cal ∧
        (∀ r ∈ [50, 10], r ≤ d_init.max_cal)) ∧
      ((adc_get_normalized (task_adc_samples st_init 0 [50, 10]) 0 false true).1 = ESP_OK ∧
        ∀ v, (adc_get_normalized (task_adc_samples st_init 0 [50, 10]) 0 false true).2.1
            = some v → v ≤ d_init.max_cal) := by
  refine ⟨by decide, ?_⟩
  exact C1_normalized_in_range st_init 0 [50, 10] d_init (by decide) (by decide) (by decide)
    (by decide) (by decide) (by decide) (by decide) (by decide) (by decide) (by decide)
    (by decide)

/-- C2: the code breaks the window invariant `window_min ≤ window_max`.
From window `[30, 70]` with width 40 and calibration `[0, 4095]`
(reachable from the init window `[0, 40]` by one raw sample of 50), a raw
input of 10 takes the downward branch, the `uint32_t` computation
`10 - 40/2` wraps to `2^32 - 10`, and the window becomes
`[4294967286, 30]` with `window_min > window_max`. -/
theorem C2_window_invariant_broken :
    (running_hyst d_c2 10).1.r_hyst.min = 4294967286 ∧
      (running_hyst d_c2 10).1.r_hyst.max = 30 ∧
      ¬ ((running_hyst d_c2 10).1.r_hyst.min ≤ (running_hyst d_c2 10).1.r_hyst.max) := by
  decide

/-- C3: on the downward branch the spec's non-wrapping arithmetic would
give `window_min = max(12 − 40/2, 0) = 0`, but the code computes the
`uint32_t` difference `12 − 20`, which wraps to `2^32 − 8 = 4294967288`. -/
theorem C3_down_branch_wraps :
    spec_down_window 12 40 0 4095 = (0, 40) ∧
      (running_hyst d_c3 12).2 = 12 ∧
      (running_hyst d_c3 12).1.r_hyst.min = 4294967288 ∧
      ((running_hyst d_c3 12).1.r_hyst.min : Int) ≠ (spec_down_window 12 40 0 4095).1 := by
  decide

/-- C4: for an input inside the window, `running_hyst` returns the window
midpoint `window_min + (window_max − window_min)/2` and leaves the whole
channel record unchanged; hence two consecutive in-window samples produce
the same filtered output; and with window `[1980, 2020]` an input of 2010
yields 2000. -/
theorem C4_hold_midpoint (d : adc_channel_data_t) (input : Nat)
    (h1 : d.r_hyst.min ≤ input) (h2 : input ≤ d.r_hyst.max) :
    running_hyst d input = (d, d.r_hyst.min + (d.r_hyst.max - d.r_hyst.min) / 2) ∧
      (∀ x2, d.r_hyst.min ≤ x2 → x2 ≤ d.r_hyst.max →
        (running_hyst (running_hyst d input).1 x2).2 = (running_hyst d input).2) ∧
      (running_hyst d_c4 2010).2 = 2000 := by
  have hcond : input ≤ d.r_hyst.max ∧ d.r_hyst.min ≤ input := ⟨h2, h1⟩
  have hbase : running_hyst d input = (d, d.r_hyst.min + (d.r_hyst.max - d.r_hyst.min) / 2) := by
    simp [running_hyst, hcond]
  refine ⟨hbase, ?_, by decide⟩
  intro x2 g1 g2
  rw [hbase]
  simp [running_hyst, g1, g2]

/-- C4 witness: window `[1980, 2020]`, input 2010: the filter holds at the
midpoint 2000, a second in-window sample (2015) reproduces it, and the
channel record is unchanged. -/
theorem C4_witness :
    (d_c4.r_hyst.min ≤ 2010 ∧ 2010 ≤ d_c4.r_hyst.max) ∧
      (running_hyst d_c4 2010 = (d_c4, d_c4.r_hyst.min + (d_c4.r_hyst.max - d_c4.r_hyst.min) / 2) ∧
        (∀ x2, d_c4.r_hyst.min ≤ x2 → x2 ≤ d_c4.r_hyst.max →
          (running_hyst (running_hyst d_c4 2010).1 x2).2 = (running_hyst d_c4 2010).2) ∧
        (running_hyst d_c4 2010).2 = 2000) := by
  refine ⟨by decide, ?_⟩
  have h := C4_hold_midpoint d_c4 2010 (by decide) (by decide)
  exact ⟨h.1, h.2.1, h.2.2⟩

/-- C5: for a 12-bit raw value above the window, `running_hyst` slides the
window up: `window_max' = min(x + width/2, calibration.max)`,
`window_min' = window_max' − width` if `window_max' > width` else 0, the
width is unchanged and the output is `x`; with width 40, calibration
`[0, 4095]` and window `[0, 40]`, feeding 2000 moves the window to
`[1980, 2020]` and outputs 2000. -/
theorem C5_slide_up (d : adc_channel_data_t) (input : Nat)
    (h12 : input ≤ 4095) (hh : d.r_hyst.hysteresis < U32_MOD)
    (hup : d.r_hyst.max < input) :
    (running_hyst d input).2 = input ∧
      (running_hyst d input).1.r_hyst.max
        = min (input + d.r_hyst.hysteresis / 2) d.max_cal ∧
      (running_hyst d input).1.r_hyst.min
        = (if d.r_hyst.hysteresis < min (input + d.r_hyst.hysteresis / 2) d.max_cal then
            min (input + d.r_hyst.hysteresis / 2) d.max_cal - d.r_hyst.hysteresis
          else 0) ∧
      (running_hyst d input).1.r_hyst.hysteresis = d.r_hyst.hysteresis ∧
      running_hyst d_c5 2000 = ({ d_c5 with r_hyst := ⟨1980, 2020, 40⟩ }, 2000) := by
  have hnotin : ¬ (input ≤ d.r_hyst.max ∧ d.r_hyst.min ≤ input) := by omega
  have hadd : uadd input (d.r_hyst.hysteresis / 2) = input + d.r_hyst.hysteresis / 2 := by
    apply uadd_eq_of_lt
    have : d.r_hyst.hysteresis / 2 ≤ (U32_MOD - 1) / 2 := by
      apply Nat.div_le_div_right; omega
    simp only [U32_MOD] at *
    omega
  refine ⟨?_, ?_, ?_, ?_, by decide⟩ <;>
    simp [running_hyst, hnotin, hup, hadd]

/-- C5 witness: the documented scenario itself: from window `[0, 40]`,
width 40, calibration `[0, 4095]`, raw 2000 outputs 2000 and the new
window is `[1980, 2020]`. -/
theorem C5_witness :
    ((2000 : Nat) ≤ 4095 ∧ d_c5.r_hyst.hysteresis < U32_MOD ∧ d_c5.r_hyst.max < 2000) ∧
      ((running_hyst d_c5 2000).2 = 2000 ∧
        (running_hyst d_c5 2000).1.r_hyst.max
          = min (2000 + d_c5.r_hyst.hysteresis / 2) d_c5.max_cal ∧
        (running_hyst d_c5 2000).1.r_hyst.min
          = (if d_c5.r_hyst.hysteresis < min (2000 + d_c5.r_hyst.hysteresis / 2) d_c5.max_cal then
              min (2000 + d_c5.r_hyst.hysteresis / 2) d_c5.max_cal - d_c5.r_hyst.hysteresis
            else 0) ∧
        (running_hyst d_c5 2000).1.r_hyst.hysteresis = d_c5.r_hyst.hysteresis) := by
  refine ⟨by decide, ?_⟩
  have h := C5_slide_up d_c5 2000 (by decide) (by decide) (by decide)
  exact ⟨h.1, h.2.1, h.2.2.1, h.2.2.2.1⟩

/-- C6: `running_average` overwrites the buffer slot at the cursor with
the input, leaves the other slots unchanged, advances the cursor modulo
`RUNNING_AVG_SIZE`, and returns the truncated mean of all slots; with the
zero-filled buffer one input of 2000 yields 200. -/
theorem C6_running_average (a : r_avg_t) (y : Nat)
    (hp : a.ptr < RUNNING_AVG_SIZE) (hlen : a.queue.length = RUNNING_AVG_SIZE) :
    (running_average a y).1.queue.getD a.ptr 0 = y ∧
      (∀ i, i < RUNNING_AVG_SIZE → i ≠ a.ptr →
        (running_average a y).1.queue.getD i 0 = a.queue.getD i 0) ∧
      (running_average a y).1.ptr = (a.ptr + 1) % RUNNING_AVG_SIZE ∧
      (running_average a y).2 = (running_average a y).1.queue.sum / RUNNING_AVG_SIZE ∧
      running_average avg0 2000 = (⟨2000 :: List.replicate 9 0, 1⟩, 200) := by
  refine ⟨?_, ?_, rfl, rfl, by decide⟩
  · exact set_getD_self 0 a.queue a.ptr y (by omega)
  · intro i _ hne
    exact set_getD_ne 0 a.queue a.ptr i y (fun h => hne h.symm)

/-- C6 witness: zero-filled buffer, cursor 0, input 2000: the slot is
overwritten, the cursor advances to 1, and the mean is `2000/10 = 200`. -/
theorem C6_witness :
    (avg0.ptr < RUNNING_AVG_SIZE ∧ avg0.queue.length = RUNNING_AVG_SIZE) ∧
      ((running_average avg0 2000).1.queue.getD avg0.ptr 0 = 2000 ∧
        (running_average avg0 2000).1.ptr = (avg0.ptr + 1) % RUNNING_AVG_SIZE ∧
        (running_average avg0 2000).2
          = (running_average avg0 2000).1.queue.sum / RUNNING_AVG_SIZE) := by
  refine ⟨by decide, ?_⟩
  have h := C6_running_average avg0 2000 (by decide) (by decide)
  exact ⟨h.1, h.2.2.1, h.2.2.2.1⟩

/-- C7: the value returned by `running_average` lies between the minimum
and the maximum of the values stored in the channel's buffer after the
new value has been written. -/
theorem C7_average_between_min_max (a : r_avg_t) (y m M : Nat)
    (hlen : a.queue.length = RUNNING_AVG_SIZE)
    (hm : (running_average a y).1.queue.minimum = (m : WithTop Nat))
    (hM : (running_average a y).1.queue.maximum = (M : WithBot Nat)) :
    m ≤ (running_average a y).2 ∧ (running_average a y).2 ≤ M := by
  obtain ⟨hmMem, hmLe⟩ := List.minimum_eq_coe_iff.mp hm
  obtain ⟨hMMem, hMLe⟩ := List.maximum_eq_coe_iff.mp hM
  have hlen2 : (running_average a y).1.queue.length = RUNNING_AVG_SIZE := by
    simpa [running_average] using hlen
  have hlow : RUNNING_AVG_SIZE * m ≤ (running_average a y).1.queue.sum := by
    have h := List.card_nsmul_le_sum (running_average a y).1.queue m hmLe
    rwa [hlen2, smul_eq_mul] at h
  have hhigh : (running_average a y).1.queue.sum ≤ RUNNING_AVG_SIZE * M := by
    have h := List.sum_le_card_nsmul (running_average a y).1.queue M hMLe
    rwa [hlen2, smul_eq_mul] at h
  have hout : (running_average a y).2 = (running_average a y).1.queue.sum / RUNNING_AVG_SIZE :=
    rfl
  constructor
  · rw [hout]
    rw [Nat.le_div_iff_mul_le (by simp [RUNNING_AVG_SIZE])]
    rw [Nat.mul_comm]
    exact hlow
  · rw [hout]
    calc (running_average a y).1.queue.sum / RUNNING_AVG_SIZE
        ≤ RUNNING_AVG_SIZE * M / RUNNING_AVG_SIZE := Nat.div_le_div_right hhigh
      _ = M := Nat.mul_div_cancel_left M (by simp [RUNNING_AVG_SIZE])

/-- C7 witness: zero-filled buffer, input 2000: the buffer holds minimum 0
and maximum 2000, and the output 200 lies between them. -/
theorem C7_witness :
    (avg0.queue.length = RUNNING_AVG_SIZE ∧
        (running_average avg0 2000).1.queue.minimum = ((0 : Nat) : WithTop Nat) ∧
        (running_average avg0 2000).1.queue.maximum = ((2000 : Nat) : WithBot Nat)) ∧
      ((0 : Nat) ≤ (running_average avg0 2000).2 ∧ (running_average avg0 2000).2 ≤ 2000) := by
  refine ⟨⟨by decide, by decide, by decide⟩, ?_⟩
  exact C7_average_between_min_max avg0 2000 0 2000 (by decide) (by decide) (by decide)

/-- C8 counterexample: `adc_set_calibration` is an Accessor API operation
with no caller-supplied lock wait duration — it calls `xSemaphoreTake`
with the fixed `pdMS_TO_TICKS(100)` — so the claim that every Accessor
API operation takes a caller-supplied maximum wait duration is false. -/
theorem C8_counterexample :
    "adc_set_calibration" ∈ accessor_api_ops ∧
      takes_caller_wait "adc_set_calibration" = false ∧
      (∀ w : Nat, lock_wait_budget_ms "adc_set_calibration" w = 100) := by
  refine ⟨by decide, by decide, fun w => ?_⟩
  simp [lock_wait_budget_ms, takes_caller_wait]

/-- C8 (amended): only `adc_get_raw` and `adc_get_normalized` take a
caller-supplied maximum wait duration for the lock; the four
calibration/hysteresis operations use a fixed 100 ms budget; and every
operation that cannot acquire the lock within its budget fails with
`ESP_ERR_TIMEOUT`, which is distinct from the validation error
`ESP_ERR_INVALID_ARG`. -/
theorem C8_wait_budgets_and_timeout (st : AdcState) (channel w mn mx hv save : Nat)
    (hch : channel < ADC_MAX_CHANNELS) (hmn : mn < mx) (hmx : mx ≤ ADC_MAX)
    (hv1 : 1 ≤ hv) (hv2 : hv ≤ 1000) :
    takes_caller_wait "adc_get_raw" = true ∧
      takes_caller_wait "adc_get_normalized" = true ∧
      lock_wait_budget_ms "adc_get_raw" w = w ∧
      lock_wait_budget_ms "adc_get_normalized" w = w ∧
      takes_caller_wait "adc_get_calibration" = false ∧
      takes_caller_wait "adc_get_hysteresis" = false ∧
      takes_caller_wait "adc_set_calibration" = false ∧
      takes_caller_wait "adc_set_hysteresis" = false ∧
      lock_wait_budget_ms "adc_get_calibration" w = 100 ∧
      lock_wait_budget_ms "adc_get_hysteresis" w = 100 ∧
      lock_wait_budget_ms "adc_set_calibration" w = 100 ∧
      lock_wait_budget_ms "adc_set_hysteresis" w = 100 ∧
      (adc_get_raw st channel false false).1 = ESP_ERR_TIMEOUT ∧
      (adc_get_normalized st channel false false).1 = ESP_ERR_TIMEOUT ∧
      (adc_get_calibration st channel false false false).1 = ESP_ERR_TIMEOUT ∧
      (adc_get_hysteresis st channel false false).1 = ESP_ERR_TIMEOUT ∧
      (adc_set_calibration st channel mn mx false save).1 = ESP_ERR_TIMEOUT ∧
      (adc_set_hysteresis st channel hv false save).1 = ESP_ERR_TIMEOUT ∧
      ESP_ERR_TIMEOUT ≠ ESP_ERR_INVALID_ARG := by
  have hchk : chk_chn channel = true := by simp [chk_chn, hch]
  have h1 : ¬ (mx ≤ mn) := by omega
  have h2 : ¬ (ADC_MAX < mx) := by omega
  have h3 : ¬ (hv = 0) := by omega
  have h4 : ¬ (1000 < hv) := by omega
  refine ⟨rfl, rfl, rfl, rfl, rfl, rfl, rfl, rfl, rfl, rfl, rfl, rfl,
    ?_, ?_, ?_, ?_, ?_, ?_, by decide⟩
  · simp [adc_get_raw, hchk]
  · simp [adc_get_normalized, hchk]
  · simp [adc_get_calibration, hchk]
  · simp [adc_get_hysteresis, hchk]
  · simp [adc_set_calibration, hchk, h1, h2]
  · simp [adc_set_hysteresis, hchk, h3, h4]

/-- C8 witness: channel 0 of the initialized table with valid arguments
and an unavailable lock: every operation reports `ESP_ERR_TIMEOUT`. -/
theorem C8_witness :
    ((0 : Nat) < ADC_MAX_CHANNELS ∧ (100 : Nat) < 4000 ∧ (4000 : Nat) ≤ ADC_MAX ∧
        (1 : Nat) ≤ 50 ∧ (50 : Nat) ≤ 1000) ∧
      ((adc_get_raw st_init 0 false false).1 = ESP_ERR_TIMEOUT ∧
        (adc_set_calibration st_init 0 100 4000 false 0).1 = ESP_ERR_TIMEOUT ∧
        (adc_set_hysteresis st_init 0 50 false 0).1 = ESP_ERR_TIMEOUT ∧
        ESP_ERR_TIMEOUT ≠ ESP_ERR_INVALID_ARG) := by
  refine ⟨by decide, ?_⟩
  have h := C8_wait_budgets_and_timeout st_init 0 7 100 4000 50 0 (by decide) (by decide)
    (by decide) (by decide) (by decide)
  obtain ⟨-, -, -, -, -, -, -, -, -, -, -, -, h13, -, -, -, h17, h18, h19⟩ := h
  exact ⟨h13, h17, h18, h19⟩

/-- C9: every Accessor API operation called with a channel index at least
`ADC_MAX_CHANNELS` fails with `ESP_ERR_INVALID_ARG` without ever
attempting to take the lock (so never with `ESP_ERR_TIMEOUT`, whatever
the lock's state), and leaves all channel state unchanged. -/
theorem C9_invalid_channel_rejected (st : AdcState) (channel : Nat)
    (v_null lock_ok : Bool) (mn mx hv save : Nat)
    (hch : ADC_MAX_CHANNELS ≤ channel) :
    adc_get_raw st channel v_null lock_ok = (ESP_ERR_INVALID_ARG, none, false) ∧
      adc_get_normalized st channel v_null lock_ok = (ESP_ERR_INVALID_ARG, none, false) ∧
      adc_get_calibration st channel v_null v_null lock_ok = (ESP_ERR_INVALID_ARG, none, false) ∧
      adc_get_hysteresis st channel v_null lock_ok = (ESP_ERR_INVALID_ARG, none, false) ∧
      adc_set_calibration st channel mn mx lock_ok save = (ESP_ERR_INVALID_ARG, st, false) ∧
      adc_set_hysteresis st channel hv lock_ok save = (ESP_ERR_INVALID_ARG, st, false) ∧
      ESP_ERR_INVALID_ARG ≠ ESP_ERR_TIMEOUT := by
  have hchk : chk_chn channel = false := by
    simp only [chk_chn, decide_eq_false_iff_not]
    omega
  refine ⟨?_, ?_, ?_, ?_, ?_, ?_, by decide⟩ <;>
    simp [adc_get_raw, adc_get_normalized, adc_get_calibration, adc_get_hysteresis,
      adc_set_calibration, adc_set_hysteresis, hchk]

/-- C9 witness: channel index 4 (equal to the configured channel count)
is rejected by every operation with `ESP_ERR_INVALID_ARG`, no lock
attempt, and an unchanged table. -/
theorem C9_witness :
    (ADC_MAX_CHANNELS ≤ 4) ∧
      (adc_get_raw st_init 4 false true = (ESP_ERR_INVALID_ARG, none, false) ∧
        adc_get_normalized st_init 4 false true = (ESP_ERR_INVALID_ARG, none, false) ∧
        adc_set_calibration st_init 4 0 4095 true 0 = (ESP_ERR_INVALID_ARG, st_init, false) ∧
        ESP_ERR_INVALID_ARG ≠ ESP_ERR_TIMEOUT) := by
  refine ⟨by decide, ?_⟩
  have h := C9_invalid_channel_rejected st_init 4 false true 0 4095 0 0 (by decide)
  exact ⟨h.1, h.2.1, h.2.2.2.2.1, h.2.2.2.2.2.2⟩

/-- C10: `adc_set_calibration` with `min ≥ max` or `max > 2^12` is
rejected with `ESP_ERR_INVALID_ARG` before the lock is attempted, and the
returned state — so the channel's calibration bounds and hysteresis
window — is exactly the prior state. -/
theorem C10_bad_calibration_rejected (st : AdcState) (channel mn mx : Nat)
    (lock_ok : Bool) (save : Nat) (hbad : mx ≤ mn ∨ ADC_MAX < mx) :
    adc_set_calibration st channel mn mx lock_ok save = (ESP_ERR_INVALID_ARG, st, false) := by
  have hcond : chk_chn channel = false ∨ mx ≤ mn ∨ ADC_MAX < mx := Or.inr hbad
  simp [adc_set_calibration, hcond]

/-- C10 witness: `adc_set_calibration(0, 100, 50)` (min ≥ max) on the
initialized table is rejected and the table is unchanged. -/
theorem C10_witness :
    ((50 : Nat) ≤ 100 ∨ ADC_MAX < 50) ∧
      adc_set_calibration st_init 0 100 50 true 0 = (ESP_ERR_INVALID_ARG, st_init, false) := by
  exact ⟨Or.inl (by decide), C10_bad_calibration_rejected st_init 0 100 50 true 0
    (Or.inl (by decide))⟩
